import Mathlib

/-!
# ESP32 BLE LED controller (`src/src/main.c`)

A shallow embedding of the firmware's four callbacks and of one iteration of
its button-polling loop.

* Global variables (`ble_addr_type`, `adv_params`, `status`) are the fields of
  `State`; every function of the source becomes a function on `State`.
* Calls into the vendor libraries (NimBLE, GPIO, FreeRTOS, logging) are not
  executed but recorded, in program order, in `State.calls`.  An entry marker
  is recorded for `ble_app_advertise`, so that its invocations can be counted.
* Values the environment supplies (pin level, `esp_timer_get_time` readings,
  the address type inferred by the host, the bytes of a written attribute) are
  explicit inputs.
* `int64_t` time stamps are microseconds since boot; they are integers here and
  C's `/` on them is `Int.tdiv` (truncation toward zero).  Readings of
  `esp_timer_get_time` lie in `[0, 2^63)`, so `n - m` stays inside `int64_t`.
* The two tasks are interleaved at the grain of one callback or one loop
  iteration (`Sys.step`).
* Memory read through a `char *` is the list of the bytes from the pointer to
  the end of the readable region; `strcmp` and `strlen` give `none` when they
  run off it.  The written payload is the first `om_len` bytes of `om_data`.
-/

namespace BleLed

/-! ## Constants of the vendor headers -/

/-- Modelled from the spec: `GPIO_NUM_0` of `driver/gpio.h` (the boot button pin). -/
def GPIO_NUM_0 : Nat := 0

/-- Modelled from the spec: `GPIO_NUM_2` of `driver/gpio.h` (the actuator pin). -/
def GPIO_NUM_2 : Nat := 2

/-- Modelled from the spec: `BLE_GAP_CONN_MODE_NON` of NimBLE `host/ble_gap.h`, the
zero value a cleared `adv_params.conn_mode` holds (non-connectable). -/
def BLE_GAP_CONN_MODE_NON : Nat := 0

/-- Modelled from the spec: `BLE_GAP_CONN_MODE_UND` of NimBLE `host/ble_gap.h`
(undirected connectable), distinct from the zero value. -/
def BLE_GAP_CONN_MODE_UND : Nat := 2

/-- Modelled from the spec: `BLE_GAP_DISC_MODE_NON` of NimBLE `host/ble_gap.h`, the
zero value a cleared `adv_params.disc_mode` holds (not discoverable). -/
def BLE_GAP_DISC_MODE_NON : Nat := 0

/-- Modelled from the spec: `BLE_GAP_DISC_MODE_GEN` of NimBLE `host/ble_gap.h`
(general discoverable), distinct from the zero value. -/
def BLE_GAP_DISC_MODE_GEN : Nat := 2

/-- Modelled from the spec: `BLE_GAP_EVENT_CONNECT` of NimBLE `host/ble_gap.h`. -/
def BLE_GAP_EVENT_CONNECT : Nat := 0

/-- Modelled from the spec: `BLE_GAP_EVENT_DISCONNECT` of NimBLE `host/ble_gap.h`. -/
def BLE_GAP_EVENT_DISCONNECT : Nat := 1

/-- Modelled from the spec: `BLE_GAP_EVENT_ADV_COMPLETE` of NimBLE `host/ble_gap.h`. -/
def BLE_GAP_EVENT_ADV_COMPLETE : Nat := 9

/-! ## Data model -/

/-- Modelled from the spec: `struct ble_gap_adv_params` of NimBLE `host/ble_gap.h`;
the source writes `conn_mode` and `disc_mode` and clears the whole struct. -/
structure ble_gap_adv_params where
  conn_mode : Nat
  disc_mode : Nat
  itvl_min : Nat
  itvl_max : Nat
  channel_map : Nat
  filter_policy : Nat
  high_duty_cycle : Nat
deriving DecidableEq, Repr

/-- The result of `memset(&adv_params, 0, sizeof(adv_params))`. -/
def ble_gap_adv_params.zero : ble_gap_adv_params :=
  ⟨0, 0, 0, 0, 0, 0, 0⟩

/-- The members of `struct ble_hs_adv_fields` that `ble_app_advertise` assigns
after clearing the struct; every other member is zero. -/
structure ble_hs_adv_fields where
  name : List Nat
  name_len : Nat
  name_is_complete : Nat
deriving DecidableEq, Repr

/-- The messages the source logs through `ESP_LOGI`. -/
inductive LogMsg where
  | gapConnectOk
  | gapConnectFailed
  | gapDisconnected
  | gapEvent
  | buttonPressed
deriving DecidableEq, Repr

/-- One recorded call, with its arguments. -/
inductive Call where
  | gpio_set_level (pin : Nat) (level : Nat)
  | esp_logi (msg : LogMsg)
  | enter_ble_app_advertise
  | ble_gap_adv_set_fields (fields : ble_hs_adv_fields)
  | ble_gap_adv_start (own_addr_type : Nat) (params : ble_gap_adv_params)
  | vTaskDelay (ticks : Nat)
deriving DecidableEq, Repr

/-- The global variables of `main.c`, the device name held by the GAP service,
and the calls made so far. -/
structure State where
  ble_addr_type : Nat
  adv_params : ble_gap_adv_params
  status : Bool
  device_name : List Nat
  calls : List Call
deriving DecidableEq, Repr

/-- The bytes of `"Melika-Server"`, the name `connect_ble` gives the GAP service. -/
def melikaServer : List Nat :=
  [77, 101, 108, 105, 107, 97, 45, 83, 101, 114, 118, 101, 114]

/-- The globals at startup: zero-initialised statics, `status = false`. -/
def State.init : State :=
  { ble_addr_type := 0
    adv_params := ble_gap_adv_params.zero
    status := false
    device_name := melikaServer
    calls := [] }

/-- Appends one recorded call. -/
def State.emit (s : State) (c : Call) : State :=
  { s with calls := s.calls ++ [c] }

/-! ## C strings -/

/-- The bytes of a buffer before its first NUL. -/
def cstr (mem : List Nat) : List Nat :=
  mem.takeWhile (fun b => b != 0)

/-- C `strlen`. The list is the memory from the pointer to the end of the
readable region; `none` when no NUL is found in it, the scan having run off
its end. -/
def strlen : List Nat → Option Nat
  | [] => none
  | b :: bs => if b = 0 then some 0 else (strlen bs).map (fun n => n + 1)

/-- C `strcmp` on bytes read as `unsigned char`: the difference of the first
pair of bytes that differ, 0 when both strings reach their NUL together. Each
list is the memory from the pointer to the end of the readable region; `none`
when the comparison runs off the end of either. -/
def strcmp : List Nat → List Nat → Option Int
  | [], _ => none
  | _ :: _, [] => none
  | a :: as, b :: bs =>
    if a ≠ b then some ((a : Int) - (b : Int))
    else if a = 0 then some 0
    else strcmp as bs

/-- C `memset(p, 0, n)` on the first `n` bytes of a buffer. -/
def memsetZero (mem : List Nat) (n : Nat) : List Nat :=
  List.replicate (min n mem.length) 0 ++ mem.drop n

/-- The literal `"LIGHT ON\0"`: eight characters, the written NUL, the implicit NUL. -/
def LIGHT_ON : List Nat := [76, 73, 71, 72, 84, 32, 79, 78, 0, 0]

/-- The literal `"LIGHT OFF\0"`. -/
def LIGHT_OFF : List Nat := [76, 73, 71, 72, 84, 32, 79, 70, 70, 0, 0]

/-- The bytes of `"PING"`. -/
def PING : List Nat := [80, 73, 78, 71]

/-! ## `device_write` -/

/-- Modelled from the spec: the part of NimBLE's `struct os_mbuf` behind
`ctxt->om`. `om_data` is the memory from the data pointer to the end of the
buffer; its first `om_len` bytes are the written payload, the rest is whatever
the buffer held before. -/
structure os_mbuf where
  om_data : List Nat
  om_len : Nat
deriving DecidableEq, Repr

/-- The bytes the client wrote. -/
def os_mbuf.payload (om : os_mbuf) : List Nat :=
  om.om_data.take om.om_len

/-- The end of `device_write`: `memset(data, 0, strlen(data))` and `return 0`.
The second component is `none` when `strlen` runs off the buffer. -/
def device_write_clear (data : List Nat) (s : State) : State × Option (List Nat × Int) :=
  match strlen data with
  | none => (s, none)
  | some n => (s, some (memsetZero data n, 0))

/-- Embedding of `device_write`. The source takes `data = ctxt->om->om_data` and never
reads `om_len`. The result is the globals, with the calls made, and, unless a
read ran off the buffer, the buffer after the final `memset` together with the
return value. -/
def device_write (om : os_mbuf) (s : State) : State × Option (List Nat × Int) :=
  let data := om.om_data
  match strcmp data LIGHT_ON with
  | none => (s, none)
  | some c1 =>
    if c1 = 0 then
      device_write_clear data (s.emit (Call.gpio_set_level GPIO_NUM_2 1))
    else
      match strcmp data LIGHT_OFF with
      | none => (s, none)
      | some c2 =>
        if c2 = 0 then
          device_write_clear data (s.emit (Call.gpio_set_level GPIO_NUM_2 0))
        else
          device_write_clear data s

/-! ## Advertising and the GAP event handler -/

/-- The `strlen` of the name the GAP service returns: the service stores the
name text followed by its NUL. -/
def nameLen (device_name : List Nat) : Nat :=
  (strlen (device_name ++ [0])).getD 0

/-- Embedding of `ble_app_advertise`: builds the name-only fields, hands them to
`ble_gap_adv_set_fields`, then clears the global `adv_params`. -/
def ble_app_advertise (s : State) : State :=
  let s0 := s.emit Call.enter_ble_app_advertise
  let device_name := s0.device_name
  let fields : ble_hs_adv_fields :=
    { name := device_name
      name_len := nameLen device_name % 256
      name_is_complete := 1 }
  let s1 := s0.emit (Call.ble_gap_adv_set_fields fields)
  { s1 with adv_params := ble_gap_adv_params.zero }

/-- The part of `struct ble_gap_event` the handler reads: the event type and
the integer found at `event->connect.status`. -/
structure ble_gap_event_t where
  type : Nat
  connect_status : Int
deriving DecidableEq, Repr

/-- Embedding of `ble_gap_event`: the new globals and the return value. -/
def ble_gap_event (event : ble_gap_event_t) (s : State) : State × Int :=
  let s1 :=
    if event.type = BLE_GAP_EVENT_CONNECT then
      let s0 := s.emit (Call.esp_logi
        (if event.connect_status = 0 then LogMsg.gapConnectOk else LogMsg.gapConnectFailed))
      if event.connect_status ≠ 0 then ble_app_advertise s0 else s0
    else if event.type = BLE_GAP_EVENT_DISCONNECT then
      let s0 := s.emit (Call.esp_logi LogMsg.gapDisconnected)
      if event.connect_status ≠ 0 then ble_app_advertise s0 else s0
    else if event.type = BLE_GAP_EVENT_ADV_COMPLETE then
      let s0 := s.emit (Call.esp_logi LogMsg.gapEvent)
      ble_app_advertise s0
    else s
  (s1, 0)

/-- Embedding of `ble_app_on_sync`: `inferred` is what `ble_hs_id_infer_auto` stores
through its out-pointer, `none` when it fails and stores nothing. -/
def ble_app_on_sync (inferred : Option Nat) (s : State) : State :=
  let s1 :=
    match inferred with
    | some t => { s with ble_addr_type := t % 256 }
    | none => s
  ble_app_advertise s1

/-! ## The button monitor -/

/-- What one iteration of the polling loop reads from its environment. -/
structure TickInput where
  -- value of `gpio_get_level(GPIO_NUM_0)`
  level : Nat
  -- first `esp_timer_get_time()` of the iteration: `n` when the pin is low,
  -- the new `m` otherwise
  now : Int
  -- the `esp_timer_get_time()` read after `vTaskDelay(100)`, when the arm
  -- branch runs
  after : Int
deriving DecidableEq, Repr

/-- The test `(n - m) / 1000 >= 2000` of the loop. -/
def thresholdReached (n m : Int) : Bool :=
  decide (Int.tdiv (n - m) 1000 ≥ 2000)

/-- The arm branch of the loop body (the block under the threshold test). -/
def armAction (s : State) : State :=
  let s1 := s.emit (Call.esp_logi LogMsg.buttonPressed)
  let s2 := { s1 with adv_params :=
    { s1.adv_params with conn_mode := BLE_GAP_CONN_MODE_UND } }
  let s3 := { s2 with adv_params :=
    { s2.adv_params with disc_mode := BLE_GAP_DISC_MODE_GEN } }
  let s4 := s3.emit (Call.ble_gap_adv_start s3.ble_addr_type s3.adv_params)
  let s5 := { s4 with status := true }
  s5.emit (Call.vTaskDelay 100)

/-- The `if (status)` block that ends the loop body. -/
def keepAlive (s : State) : State :=
  if s.status then
    let s1 := { s with adv_params :=
      { s.adv_params with conn_mode := BLE_GAP_CONN_MODE_UND } }
    let s2 := { s1 with adv_params :=
      { s1.adv_params with disc_mode := BLE_GAP_DISC_MODE_GEN } }
    s2.emit (Call.ble_gap_adv_start s2.ble_addr_type s2.adv_params)
  else s

/-- One iteration of the `while (true)` loop of `boot_creds_clear`; `m` is the
loop's local variable. -/
def boot_creds_clear_iter (inp : TickInput) (m : Int) (s : State) : Int × State :=
  let r : Int × State :=
    if inp.level = 0 then
      let n := inp.now
      if thresholdReached n m then (inp.after, armAction s) else (m, s)
    else (inp.now, s)
  let s2 := r.2.emit (Call.vTaskDelay 10)
  (r.1, keepAlive s2)

/-- The first `k` iterations of `boot_creds_clear`, `k` the length of the input
list; `m` is the value read by the `esp_timer_get_time()` before the loop. -/
def boot_creds_clear : List TickInput → Int → State → Int × State
  | [], m, s => (m, s)
  | inp :: rest, m, s =>
    let r := boot_creds_clear_iter inp m s
    boot_creds_clear rest r.1 r.2

/-! ## The whole system -/

/-- The monitor's local `m` together with the globals. -/
structure Sys where
  m : Int
  g : State
deriving DecidableEq, Repr

/-- The system after `app_main`, the monitor having read `m0` before its loop. -/
def Sys.init (m0 : Int) : Sys := ⟨m0, State.init⟩

/-- One atomic step of the system. -/
inductive Step where
  | tick (inp : TickInput)
  | gap (event : ble_gap_event_t)
  | write (om : os_mbuf)
  | sync (inferred : Option Nat)
deriving DecidableEq, Repr

/-- Runs one step. -/
def Sys.step (x : Sys) : Step → Sys
  | Step.tick inp =>
    let r := boot_creds_clear_iter inp x.m x.g
    ⟨r.1, r.2⟩
  | Step.gap event => ⟨x.m, (ble_gap_event event x.g).1⟩
  | Step.write om => ⟨x.m, (device_write om x.g).1⟩
  | Step.sync inferred => ⟨x.m, ble_app_on_sync inferred x.g⟩

/-- Runs a sequence of steps. -/
def Sys.run (x : Sys) (steps : List Step) : Sys :=
  steps.foldl Sys.step x

/-! ## Observations on the call record -/

/-- Is the call a `gpio_set_level`? -/
def Call.isGpio : Call → Bool
  | Call.gpio_set_level _ _ => true
  | _ => false

/-- Is the call a `ble_gap_adv_start`? -/
def Call.isAdvStart : Call → Bool
  | Call.ble_gap_adv_start _ _ => true
  | _ => false

/-- Is the call a `ble_gap_adv_set_fields`? -/
def Call.isSetFields : Call → Bool
  | Call.ble_gap_adv_set_fields _ => true
  | _ => false

/-- Is the record an entry into `ble_app_advertise`? -/
def Call.isAdvertise : Call → Bool
  | Call.enter_ble_app_advertise => true
  | _ => false

/-- Is the call the log line of the arm branch? -/
def Call.isArm : Call → Bool
  | Call.esp_logi LogMsg.buttonPressed => true
  | _ => false

/-- The calls `t` made beyond those already recorded in `s`. -/
def newCalls (s t : State) : List Call :=
  t.calls.drop s.calls.length

/-- The levels written to the actuator pin, in order. -/
def gpioLevels (cs : List Call) : List Nat :=
  cs.filterMap (fun c =>
    match c with
    | Call.gpio_set_level pin level => if pin = GPIO_NUM_2 then some level else none
    | _ => none)

/-- Number of entries into `ble_app_advertise`. -/
def advertiseCalls (cs : List Call) : Nat := cs.countP Call.isAdvertise

/-- Number of `ble_gap_adv_start` commands. -/
def advStartCalls (cs : List Call) : Nat := cs.countP Call.isAdvStart

/-- Number of arm actions. -/
def armCount (cs : List Call) : Nat := cs.countP Call.isArm

/-- Does every `ble_gap_adv_start` among the calls use address type `a`? -/
def usesAddrType (a : Nat) : Call → Bool
  | Call.ble_gap_adv_start own _ => decide (own = a)
  | _ => true

/-- Does the call, when it is a `ble_gap_adv_start`, carry undirected-connectable
and general-discoverable parameters? -/
def Call.modesUndGen : Call → Bool
  | Call.ble_gap_adv_start _ p =>
    decide (p.conn_mode = BLE_GAP_CONN_MODE_UND) && decide (p.disc_mode = BLE_GAP_DISC_MODE_GEN)
  | _ => true

/-- The parameters after the two assignments `conn_mode = BLE_GAP_CONN_MODE_UND`,
`disc_mode = BLE_GAP_DISC_MODE_GEN`. -/
def foreverParams (p : ble_gap_adv_params) : ble_gap_adv_params :=
  { p with conn_mode := BLE_GAP_CONN_MODE_UND, disc_mode := BLE_GAP_DISC_MODE_GEN }

/-- The fields `ble_app_advertise` builds from the device name. -/
def nameFields (s : State) : ble_hs_adv_fields :=
  { name := s.device_name
    name_len := nameLen s.device_name % 256
    name_is_complete := 1 }

/-- Does this iteration take the arm branch? -/
def arms (inp : TickInput) (m : Int) : Bool :=
  decide (inp.level = 0) && thresholdReached inp.now m

/-- At every low-pin iteration of the run the threshold test fails; `m` and the
globals are followed through the loop as the code updates them. -/
def belowThresholdRun : List TickInput → Int → State → Bool
  | [], _, _ => true
  | inp :: rest, m, s =>
    (decide (inp.level ≠ 0) || !thresholdReached inp.now m) &&
      belowThresholdRun rest (boot_creds_clear_iter inp m s).1 (boot_creds_clear_iter inp m s).2

/-- The characters of `LIGHT ON`. -/
def lightOnText : List Nat := [76, 73, 71, 72, 84, 32, 79, 78]

/-- The characters of `LIGHT OFF`. -/
def lightOffText : List Nat := [76, 73, 71, 72, 84, 32, 79, 70, 70]

/-! ## Lemmas on C strings -/

theorem cstr_nil : cstr [] = [] := rfl

theorem cstr_cons_zero (bs : List Nat) : cstr (0 :: bs) = [] := by
  simp [cstr]

theorem cstr_cons_pos (b : Nat) (bs : List Nat) (hb : b ≠ 0) :
    cstr (b :: bs) = b :: cstr bs := by
  simp [cstr, hb]

theorem mem_zero_of_cons_pos {b : Nat} {bs : List Nat} (hb : b ≠ 0)
    (h : 0 ∈ b :: bs) : 0 ∈ bs := by
  rcases List.mem_cons.mp h with h0 | h0
  · exact absurd h0.symm hb
  · exact h0

/-- On memory that holds a NUL on both sides, `strcmp` stays inside it, and its
result is 0 exactly when the two strings agree up to their first NUL. -/
theorem strcmp_of_terminated (a b : List Nat) (ha : 0 ∈ a) (hb : 0 ∈ b) :
    ∃ c, strcmp a b = some c ∧ (c = 0 ↔ cstr a = cstr b) := by
  induction a generalizing b with
  | nil => simp at ha
  | cons x xs ih =>
    cases b with
    | nil => simp at hb
    | cons y ys =>
      by_cases hxy : x = y
      · subst hxy
        by_cases hx : x = 0
        · subst hx
          exact ⟨0, by simp [strcmp], by simp [cstr_cons_zero]⟩
        · obtain ⟨c, hc1, hc2⟩ := ih ys (mem_zero_of_cons_pos hx ha)
            (mem_zero_of_cons_pos hx hb)
          refine ⟨c, by simp [strcmp, hx, hc1], ?_⟩
          rw [hc2, cstr_cons_pos x xs hx, cstr_cons_pos x ys hx]
          simp
      · refine ⟨(x : Int) - (y : Int), by simp [strcmp, hxy], ?_⟩
        have hne : (x : Int) - (y : Int) ≠ 0 := by omega
        have hc : cstr (x :: xs) ≠ cstr (y :: ys) := by
          by_cases hx : x = 0
          · subst hx
            have hy : y ≠ 0 := fun h => hxy h.symm
            simp [cstr_cons_zero, cstr_cons_pos y ys hy]
          · by_cases hy : y = 0
            · subst hy
              simp [cstr_cons_zero, cstr_cons_pos x xs hx]
            · simp [cstr_cons_pos x xs hx, cstr_cons_pos y ys hy, hxy]
        exact ⟨fun h => absurd h hne, fun h => absurd h hc⟩

/-- On memory that holds a NUL, `strlen` stays inside it and returns the length
of the text before the first NUL. -/
theorem strlen_of_terminated (a : List Nat) (ha : 0 ∈ a) :
    strlen a = some (cstr a).length := by
  induction a with
  | nil => simp at ha
  | cons x xs ih =>
    by_cases hx : x = 0
    · subst hx
      simp [strlen, cstr_cons_zero]
    · simp [strlen, hx, ih (mem_zero_of_cons_pos hx ha), cstr_cons_pos x xs hx]

/-- When the first `n` bytes hold a NUL, the text before the first NUL is the
same in the whole memory as in those `n` bytes. -/
theorem cstr_take (l : List Nat) (n : Nat) (h : 0 ∈ l.take n) :
    cstr l = cstr (l.take n) := by
  induction l generalizing n with
  | nil => simp
  | cons x xs ih =>
    cases n with
    | zero => simp at h
    | succ k =>
      by_cases hx : x = 0
      · subst hx
        simp [cstr_cons_zero]
      · have hk : 0 ∈ xs.take k := by
          rw [List.take_succ_cons] at h
          exact mem_zero_of_cons_pos hx h
        rw [List.take_succ_cons, cstr_cons_pos x xs hx, cstr_cons_pos x _ hx, ih k hk]

/-! ## Lemmas on the call record -/

theorem newCalls_of_calls_eq {s t : State} {cs : List Call}
    (h : t.calls = s.calls ++ cs) : newCalls s t = cs := by
  simp [newCalls, h]

theorem newCalls_emit (s : State) (c : Call) : newCalls s (s.emit c) = [c] :=
  newCalls_of_calls_eq rfl

theorem newCalls_self (s : State) : newCalls s s = [] := by
  simp [newCalls]

/-! ## `device_write` -/

/-- The globals `device_write` leaves: the ones it found, with at most one
`gpio_set_level` on the actuator pin added to the calls. -/
theorem device_write_fst (om : os_mbuf) (s : State) :
    (device_write om s).1 = s ∨
    (device_write om s).1 = s.emit (Call.gpio_set_level GPIO_NUM_2 1) ∨
    (device_write om s).1 = s.emit (Call.gpio_set_level GPIO_NUM_2 0) := by
  have hc : ∀ (d : List Nat) (t : State), (device_write_clear d t).1 = t := by
    intro d t
    unfold device_write_clear
    cases strlen d <;> rfl
  unfold device_write
  dsimp only
  cases strcmp om.om_data LIGHT_ON with
  | none => simp
  | some c1 =>
    by_cases h1 : c1 = 0
    · simp [h1, hc]
    · cases strcmp om.om_data LIGHT_OFF with
      | none => simp [h1]
      | some c2 =>
        by_cases h2 : c2 = 0
        · simp [h1, h2, hc]
        · simp [h1, h2, hc]

/-- When the written payload holds a NUL, `device_write` stays inside the
buffer and decides on the payload text before that NUL: pin to 1 exactly for
`LIGHT ON`, to 0 exactly for `LIGHT OFF`, no call otherwise; it clears that
text and returns 0. -/
theorem device_write_terminated (om : os_mbuf) (s : State) (h : 0 ∈ om.payload) :
    (newCalls s (device_write om s).1 = [Call.gpio_set_level GPIO_NUM_2 1]
        ↔ cstr om.payload = lightOnText) ∧
    (newCalls s (device_write om s).1 = [Call.gpio_set_level GPIO_NUM_2 0]
        ↔ cstr om.payload = lightOffText) ∧
    (newCalls s (device_write om s).1 = []
        ↔ (cstr om.payload ≠ lightOnText ∧ cstr om.payload ≠ lightOffText)) ∧
    (device_write om s).2 =
      some (memsetZero om.om_data (cstr om.payload).length, 0) := by
  have hd : 0 ∈ om.om_data := List.mem_of_mem_take h
  have hp : cstr om.om_data = cstr om.payload := cstr_take om.om_data om.om_len h
  have hon : cstr LIGHT_ON = lightOnText := by decide
  have hoff : cstr LIGHT_OFF = lightOffText := by decide
  have hne : lightOnText ≠ lightOffText := by decide
  obtain ⟨c1, e1, i1⟩ := strcmp_of_terminated om.om_data LIGHT_ON hd (by decide)
  obtain ⟨c2, e2, i2⟩ := strcmp_of_terminated om.om_data LIGHT_OFF hd (by decide)
  rw [hp, hon] at i1
  rw [hp, hoff] at i2
  have hl : strlen om.om_data = some (cstr om.payload).length := by
    rw [strlen_of_terminated om.om_data hd, hp]
  by_cases h1 : cstr om.payload = lightOnText
  · have hc1 : c1 = 0 := i1.mpr h1
    have hw : device_write om s =
        (s.emit (Call.gpio_set_level GPIO_NUM_2 1),
          some (memsetZero om.om_data (cstr om.payload).length, 0)) := by
      simp [device_write, device_write_clear, e1, hc1, hl]
    rw [hw]
    simp only [newCalls_emit]
    simp [h1, hne]
  · have hc1 : c1 ≠ 0 := fun hc => h1 (i1.mp hc)
    by_cases h2 : cstr om.payload = lightOffText
    · have hc2 : c2 = 0 := i2.mpr h2
      have hw : device_write om s =
          (s.emit (Call.gpio_set_level GPIO_NUM_2 0),
            some (memsetZero om.om_data (cstr om.payload).length, 0)) := by
        simp [device_write, device_write_clear, e1, hc1, e2, hc2, hl]
      rw [hw]
      simp only [newCalls_emit]
      simp [h2, hne.symm]
    · have hc2 : c2 ≠ 0 := fun hc => h2 (i2.mp hc)
      have hw : device_write om s =
          (s, some (memsetZero om.om_data (cstr om.payload).length, 0)) := by
        simp [device_write, device_write_clear, e1, hc1, e2, hc2, hl]
      rw [hw]
      simp only [newCalls_self]
      simp [h1, h2]

/-- C1, the code at the failing input: the client writes the eight bytes of
`LIGHT ON` into a buffer whose next bytes are `X` and NUL. The payload text is
`LIGHT ON`, yet `device_write` makes no call: both comparisons read on to the
`X`, and the final `memset` clears nine bytes, one more than was written. The
same eight bytes followed by a NUL, and `LIGHT OFF` likewise, do switch the
pin. -/
theorem device_write_unterminated_light_on :
    os_mbuf.payload ⟨lightOnText ++ [88, 0], 8⟩ = lightOnText ∧
    cstr (os_mbuf.payload ⟨lightOnText ++ [88, 0], 8⟩) = lightOnText ∧
    newCalls State.init (device_write ⟨lightOnText ++ [88, 0], 8⟩ State.init).1 = [] ∧
    (device_write ⟨lightOnText ++ [88, 0], 8⟩ State.init).2
      = some (List.replicate 10 0, 0) ∧
    newCalls State.init (device_write ⟨lightOnText ++ [0], 8⟩ State.init).1
      = [Call.gpio_set_level GPIO_NUM_2 1] ∧
    gpioLevels (device_write ⟨lightOffText ++ [0], 9⟩
      (device_write ⟨lightOnText ++ [0], 8⟩ State.init).1).1.calls = [1, 0] := by
  decide

/-! ## `ble_app_advertise` and `ble_gap_event` -/

theorem ble_app_advertise_calls (s : State) :
    (ble_app_advertise s).calls = s.calls ++
      [Call.enter_ble_app_advertise, Call.ble_gap_adv_set_fields (nameFields s)] := by
  simp [ble_app_advertise, State.emit, nameFields]

theorem newCalls_ble_app_advertise (s : State) :
    newCalls s (ble_app_advertise s) =
      [Call.enter_ble_app_advertise, Call.ble_gap_adv_set_fields (nameFields s)] :=
  newCalls_of_calls_eq (ble_app_advertise_calls s)

theorem ble_app_advertise_status (s : State) :
    (ble_app_advertise s).status = s.status := rfl

theorem ble_app_advertise_addr (s : State) :
    (ble_app_advertise s).ble_addr_type = s.ble_addr_type := rfl

theorem ble_app_advertise_params (s : State) :
    (ble_app_advertise s).adv_params = ble_gap_adv_params.zero := rfl

theorem newCalls_emit_advertise (s : State) (c : Call) :
    newCalls s (ble_app_advertise (s.emit c)) =
      [c, Call.enter_ble_app_advertise,
        Call.ble_gap_adv_set_fields (nameFields s)] := by
  apply newCalls_of_calls_eq
  simp [ble_app_advertise, State.emit, nameFields]

/-- C3, the code at the failing input: a Disconnect event whose
`connect.status` word reads 0 leads to no entry into `ble_app_advertise`; the
handler only logs and returns 0. -/
theorem disconnect_status_zero_no_advertise :
    newCalls State.init
        (ble_gap_event ⟨BLE_GAP_EVENT_DISCONNECT, 0⟩ State.init).1
      = [Call.esp_logi LogMsg.gapDisconnected] ∧
    advertiseCalls (newCalls State.init
        (ble_gap_event ⟨BLE_GAP_EVENT_DISCONNECT, 0⟩ State.init).1) = 0 ∧
    (ble_gap_event ⟨BLE_GAP_EVENT_DISCONNECT, 0⟩ State.init).2 = 0 := by
  decide

/-- C4, the code at the failing input: `ble_app_advertise`, called on the
startup state, hands the name fields to `ble_gap_adv_set_fields` and returns
without any `ble_gap_adv_start`; so do the sync callback and the handler of an
Adv-complete event, which call it. -/
theorem ble_app_advertise_no_adv_start :
    newCalls State.init (ble_app_advertise State.init) =
      [Call.enter_ble_app_advertise,
       Call.ble_gap_adv_set_fields ⟨melikaServer, 13, 1⟩] ∧
    advStartCalls (newCalls State.init (ble_app_advertise State.init)) = 0 ∧
    advStartCalls (newCalls State.init (ble_app_on_sync (some 0) State.init)) = 0 ∧
    advStartCalls (newCalls State.init
      (ble_gap_event ⟨BLE_GAP_EVENT_ADV_COMPLETE, 0⟩ State.init).1) = 0 := by
  decide

/-- C9: a `BLE_GAP_EVENT_ADV_COMPLETE` event, whatever the globals (the latch
included) and whatever the other fields of the event, makes the handler log,
enter `ble_app_advertise` exactly once, and return 0. -/
theorem adv_complete_advertises_once (s : State) (status : Int) :
    advertiseCalls (newCalls s
        (ble_gap_event ⟨BLE_GAP_EVENT_ADV_COMPLETE, status⟩ s).1) = 1 ∧
    (ble_gap_event ⟨BLE_GAP_EVENT_ADV_COMPLETE, status⟩ s).1
      = ble_app_advertise (s.emit (Call.esp_logi LogMsg.gapEvent)) ∧
    (ble_gap_event ⟨BLE_GAP_EVENT_ADV_COMPLETE, status⟩ s).2 = 0 := by
  have h : (ble_gap_event ⟨BLE_GAP_EVENT_ADV_COMPLETE, status⟩ s).1
      = ble_app_advertise (s.emit (Call.esp_logi LogMsg.gapEvent)) := by
    simp [ble_gap_event, BLE_GAP_EVENT_ADV_COMPLETE, BLE_GAP_EVENT_CONNECT,
      BLE_GAP_EVENT_DISCONNECT]
  refine ⟨?_, h, rfl⟩
  rw [h, newCalls_emit_advertise]
  simp [advertiseCalls, Call.isAdvertise]

/-- C10: on a Connect event with status 0 the handler only logs: it does not
enter `ble_app_advertise` and leaves `adv_params`, the latch and the address
type as they were; on a Connect event with a non-zero status it enters
`ble_app_advertise` exactly once; on an event of any type other than Connect,
Disconnect and Adv-complete it leaves the state, call record included,
untouched; it returns 0 in each case. -/
theorem gap_event_connect_and_unhandled (event : ble_gap_event_t) (s : State) :
    (event.type = BLE_GAP_EVENT_CONNECT → event.connect_status = 0 →
      newCalls s (ble_gap_event event s).1 = [Call.esp_logi LogMsg.gapConnectOk] ∧
      advertiseCalls (newCalls s (ble_gap_event event s).1) = 0 ∧
      (ble_gap_event event s).1.adv_params = s.adv_params ∧
      (ble_gap_event event s).1.status = s.status ∧
      (ble_gap_event event s).1.ble_addr_type = s.ble_addr_type ∧
      (ble_gap_event event s).2 = 0) ∧
    (event.type = BLE_GAP_EVENT_CONNECT → event.connect_status ≠ 0 →
      advertiseCalls (newCalls s (ble_gap_event event s).1) = 1 ∧
      (ble_gap_event event s).2 = 0) ∧
    (event.type ≠ BLE_GAP_EVENT_CONNECT → event.type ≠ BLE_GAP_EVENT_DISCONNECT →
      event.type ≠ BLE_GAP_EVENT_ADV_COMPLETE →
      ble_gap_event event s = (s, 0)) := by
  refine ⟨?_, ?_, ?_⟩
  · intro ht hs
    have h : (ble_gap_event event s).1 = s.emit (Call.esp_logi LogMsg.gapConnectOk) := by
      simp [ble_gap_event, ht, hs]
    rw [h, newCalls_emit]
    exact ⟨rfl, by decide, rfl, rfl, rfl, rfl⟩
  · intro ht hs
    have h : (ble_gap_event event s).1
        = ble_app_advertise (s.emit (Call.esp_logi LogMsg.gapConnectFailed)) := by
      simp [ble_gap_event, ht, hs]
    rw [h, newCalls_emit_advertise]
    exact ⟨by simp [advertiseCalls, Call.isAdvertise], rfl⟩
  · intro h1 h2 h3
    simp [ble_gap_event, h1, h2, h3]

/-- Witness for C10: a successful connect, a failed connect (status 5) and an
event of type 3, each on the startup state. -/
theorem gap_event_connect_and_unhandled_witness :
    (newCalls State.init (ble_gap_event ⟨BLE_GAP_EVENT_CONNECT, 0⟩ State.init).1
        = [Call.esp_logi LogMsg.gapConnectOk] ∧
      advertiseCalls
        (newCalls State.init (ble_gap_event ⟨BLE_GAP_EVENT_CONNECT, 0⟩ State.init).1) = 0 ∧
      (ble_gap_event ⟨BLE_GAP_EVENT_CONNECT, 0⟩ State.init).1.adv_params
        = State.init.adv_params ∧
      (ble_gap_event ⟨BLE_GAP_EVENT_CONNECT, 0⟩ State.init).1.status = State.init.status ∧
      (ble_gap_event ⟨BLE_GAP_EVENT_CONNECT, 0⟩ State.init).1.ble_addr_type
        = State.init.ble_addr_type ∧
      (ble_gap_event ⟨BLE_GAP_EVENT_CONNECT, 0⟩ State.init).2 = 0) ∧
    (advertiseCalls
        (newCalls State.init (ble_gap_event ⟨BLE_GAP_EVENT_CONNECT, 5⟩ State.init).1) = 1 ∧
      (ble_gap_event ⟨BLE_GAP_EVENT_CONNECT, 5⟩ State.init).2 = 0) ∧
    ble_gap_event ⟨3, 0⟩ State.init = (State.init, 0) :=
  ⟨(gap_event_connect_and_unhandled ⟨BLE_GAP_EVENT_CONNECT, 0⟩ State.init).1 rfl rfl,
   (gap_event_connect_and_unhandled ⟨BLE_GAP_EVENT_CONNECT, 5⟩ State.init).2.1 rfl
     (by decide),
   (gap_event_connect_and_unhandled ⟨3, 0⟩ State.init).2.2
     (by decide) (by decide) (by decide)⟩

/-! ## The button monitor: one iteration -/

/-- The threshold test is `n - m ≥ 2 000 000` microseconds. -/
theorem thresholdReached_iff (n m : Int) :
    thresholdReached n m = true ↔ 2000000 ≤ n - m := by
  have key : ∀ a : Int, 2000 ≤ Int.tdiv a 1000 ↔ 2000000 ≤ a := by
    intro a
    rcases le_or_lt 0 a with h | h
    · rw [Int.tdiv_eq_ediv h (by norm_num)]
      omega
    · have h2 : Int.tdiv a 1000 = - Int.tdiv (-a) 1000 := by
        rw [Int.neg_tdiv]
        simp
      have h3 := Int.tdiv_nonneg (a := -a) (b := 1000) (by omega) (by norm_num)
      omega
  simp [thresholdReached, key]

theorem thresholdReached_false_iff (n m : Int) :
    thresholdReached n m = false ↔ n - m < 2000000 := by
  rw [← Bool.not_eq_true, thresholdReached_iff]
  omega

theorem armAction_calls (s : State) :
    (armAction s).calls = s.calls ++
      [Call.esp_logi LogMsg.buttonPressed,
       Call.ble_gap_adv_start s.ble_addr_type (foreverParams s.adv_params),
       Call.vTaskDelay 100] := by
  simp [armAction, State.emit, foreverParams]

theorem armAction_status (s : State) : (armAction s).status = true := rfl

theorem armAction_addr (s : State) : (armAction s).ble_addr_type = s.ble_addr_type := rfl

theorem armAction_params (s : State) :
    (armAction s).adv_params = foreverParams s.adv_params := rfl

theorem keepAlive_calls (s : State) :
    (keepAlive s).calls = s.calls ++
      (if s.status then
        [Call.ble_gap_adv_start s.ble_addr_type (foreverParams s.adv_params)]
      else []) := by
  by_cases h : s.status = true <;> simp [keepAlive, State.emit, foreverParams, h]

theorem keepAlive_status (s : State) : (keepAlive s).status = s.status := by
  by_cases h : s.status = true <;> simp [keepAlive, State.emit, h]

theorem keepAlive_addr (s : State) : (keepAlive s).ble_addr_type = s.ble_addr_type := by
  by_cases h : s.status = true <;> simp [keepAlive, State.emit, h]

theorem keepAlive_params (s : State) :
    (keepAlive s).adv_params =
      if s.status then foreverParams s.adv_params else s.adv_params := by
  by_cases h : s.status = true <;> simp [keepAlive, State.emit, foreverParams, h]

theorem iter_eq (inp : TickInput) (m : Int) (s : State) :
    boot_creds_clear_iter inp m s =
      if arms inp m then
        (inp.after, keepAlive ((armAction s).emit (Call.vTaskDelay 10)))
      else
        (if inp.level = 0 then m else inp.now,
          keepAlive (s.emit (Call.vTaskDelay 10))) := by
  by_cases h0 : inp.level = 0
  · by_cases h1 : thresholdReached inp.now m = true
    · simp [boot_creds_clear_iter, arms, h0, h1]
    · simp [boot_creds_clear_iter, arms, h0, h1]
  · simp [boot_creds_clear_iter, arms, h0]

/-- The calls of one iteration, in order. -/
theorem iter_calls (inp : TickInput) (m : Int) (s : State) :
    (boot_creds_clear_iter inp m s).2.calls = s.calls ++
      ((if arms inp m then
          [Call.esp_logi LogMsg.buttonPressed,
           Call.ble_gap_adv_start s.ble_addr_type (foreverParams s.adv_params),
           Call.vTaskDelay 100]
        else []) ++
       [Call.vTaskDelay 10] ++
       (if arms inp m then
          [Call.ble_gap_adv_start s.ble_addr_type (foreverParams s.adv_params)]
        else if s.status then
          [Call.ble_gap_adv_start s.ble_addr_type (foreverParams s.adv_params)]
        else [])) := by
  rw [iter_eq]
  by_cases h : arms inp m = true
  · simp [h, keepAlive_calls, armAction_calls, State.emit, armAction_status,
      armAction_addr, armAction_params, foreverParams]
  · by_cases hs : s.status = true <;> simp [h, hs, keepAlive_calls, State.emit]

theorem iter_status (inp : TickInput) (m : Int) (s : State) :
    (boot_creds_clear_iter inp m s).2.status = (arms inp m || s.status) := by
  rw [iter_eq]
  by_cases h : arms inp m = true
  · simp [h, keepAlive_status, State.emit, armAction_status]
  · simp [h, keepAlive_status, State.emit]

theorem iter_addr (inp : TickInput) (m : Int) (s : State) :
    (boot_creds_clear_iter inp m s).2.ble_addr_type = s.ble_addr_type := by
  rw [iter_eq]
  by_cases h : arms inp m = true
  · simp [h, keepAlive_addr, State.emit, armAction_addr]
  · simp [h, keepAlive_addr, State.emit]

theorem iter_m (inp : TickInput) (m : Int) (s : State) :
    (boot_creds_clear_iter inp m s).1 =
      if arms inp m then inp.after else if inp.level = 0 then m else inp.now := by
  rw [iter_eq]
  by_cases h : arms inp m = true <;> simp [h]

theorem iter_params (inp : TickInput) (m : Int) (s : State) :
    (boot_creds_clear_iter inp m s).2.adv_params =
      if (arms inp m || s.status) then foreverParams s.adv_params else s.adv_params := by
  rw [iter_eq]
  by_cases h : arms inp m = true
  · simp [h, keepAlive_params, State.emit, armAction_status, armAction_params, foreverParams]
  · by_cases hs : s.status = true <;> simp [h, hs, keepAlive_params, State.emit]

/-! ## Growth of the call record -/

theorem calls_eq_append_newCalls {s t : State} (h : s.calls <+: t.calls) :
    t.calls = s.calls ++ newCalls s t := by
  obtain ⟨cs, hcs⟩ := h
  simp [newCalls, ← hcs]

theorem newCalls_append {s t u : State} (h1 : s.calls <+: t.calls)
    (h2 : t.calls <+: u.calls) : newCalls s u = newCalls s t ++ newCalls t u := by
  apply newCalls_of_calls_eq
  rw [calls_eq_append_newCalls h2, calls_eq_append_newCalls h1, List.append_assoc]

theorem iter_grows (inp : TickInput) (m : Int) (s : State) :
    s.calls <+: (boot_creds_clear_iter inp m s).2.calls := by
  rw [iter_calls]
  exact List.prefix_append _ _

theorem boot_creds_clear_cons (inp : TickInput) (rest : List TickInput) (m : Int)
    (s : State) :
    boot_creds_clear (inp :: rest) m s =
      boot_creds_clear rest (boot_creds_clear_iter inp m s).1
        (boot_creds_clear_iter inp m s).2 := rfl

theorem boot_creds_clear_grows (run : List TickInput) (m : Int) (s : State) :
    s.calls <+: (boot_creds_clear run m s).2.calls := by
  induction run generalizing m s with
  | nil => exact List.prefix_refl _
  | cons inp rest ih =>
    rw [boot_creds_clear_cons]
    exact (iter_grows inp m s).trans (ih _ _)

theorem boot_creds_clear_append (r1 r2 : List TickInput) (m : Int) (s : State) :
    boot_creds_clear (r1 ++ r2) m s =
      boot_creds_clear r2 (boot_creds_clear r1 m s).1 (boot_creds_clear r1 m s).2 := by
  induction r1 generalizing m s with
  | nil => rfl
  | cons inp rest ih =>
    simp only [List.cons_append, boot_creds_clear_cons, ih]

theorem ble_app_advertise_grows (s : State) :
    s.calls <+: (ble_app_advertise s).calls := by
  rw [ble_app_advertise_calls]
  exact List.prefix_append _ _

theorem emit_grows (s : State) (c : Call) : s.calls <+: (s.emit c).calls :=
  List.prefix_append _ _

theorem ble_gap_event_grows (event : ble_gap_event_t) (s : State) :
    s.calls <+: (ble_gap_event event s).1.calls := by
  unfold ble_gap_event
  dsimp only
  split_ifs <;>
    first
    | exact List.prefix_refl _
    | exact emit_grows _ _
    | exact (emit_grows _ _).trans (ble_app_advertise_grows _)

theorem device_write_grows (om : os_mbuf) (s : State) :
    s.calls <+: (device_write om s).1.calls := by
  rcases device_write_fst om s with h | h | h
  · rw [h]
  · rw [h]
    exact emit_grows _ _
  · rw [h]
    exact emit_grows _ _

theorem ble_app_on_sync_grows (inferred : Option Nat) (s : State) :
    s.calls <+: (ble_app_on_sync inferred s).calls := by
  cases inferred with
  | none => exact ble_app_advertise_grows s
  | some t => exact ble_app_advertise_grows { s with ble_addr_type := t % 256 }

theorem step_grows (x : Sys) (st : Step) : x.g.calls <+: (x.step st).g.calls := by
  cases st with
  | tick inp => exact iter_grows inp x.m x.g
  | gap event => exact ble_gap_event_grows event x.g
  | write om => exact device_write_grows om x.g
  | sync inferred => exact ble_app_on_sync_grows inferred x.g

theorem run_cons (x : Sys) (st : Step) (rest : List Step) :
    x.run (st :: rest) = (x.step st).run rest := rfl

/-! ## The latch -/

theorem ble_gap_event_status (event : ble_gap_event_t) (s : State) :
    (ble_gap_event event s).1.status = s.status := by
  unfold ble_gap_event
  dsimp only
  split_ifs <;> rfl

theorem device_write_status (om : os_mbuf) (s : State) :
    (device_write om s).1.status = s.status := by
  rcases device_write_fst om s with h | h | h <;> rw [h] <;> rfl

theorem ble_app_on_sync_status (inferred : Option Nat) (s : State) :
    (ble_app_on_sync inferred s).status = s.status := by
  cases inferred <;> rfl

theorem step_status (x : Sys) (st : Step) (h : x.g.status = true) :
    (x.step st).g.status = true := by
  cases st with
  | tick inp =>
    show (boot_creds_clear_iter inp x.m x.g).2.status = true
    rw [iter_status, h, Bool.or_true]
  | gap event =>
    show (ble_gap_event event x.g).1.status = true
    rw [ble_gap_event_status, h]
  | write om =>
    show (device_write om x.g).1.status = true
    rw [device_write_status, h]
  | sync inferred =>
    show (ble_app_on_sync inferred x.g).status = true
    rw [ble_app_on_sync_status, h]

theorem run_status (steps : List Step) (x : Sys) (h : x.g.status = true) :
    (x.run steps).g.status = true := by
  induction steps generalizing x with
  | nil => exact h
  | cons st rest ih =>
    rw [run_cons]
    exact ih _ (step_status x st h)

/-- C2: the latch `status` is false at startup, and no step (a monitor
iteration with any pin level and clock readings, a GAP event of any type, a
write of any bytes, the sync callback) and hence no sequence of steps clears
it: true before, true after. -/
theorem status_latch_monotone :
    (∀ m0 : Int, (Sys.init m0).g.status = false) ∧
    (∀ (x : Sys) (st : Step), x.g.status = true → (x.step st).g.status = true) ∧
    (∀ (x : Sys) (steps : List Step), x.g.status = true →
      (x.run steps).g.status = true) :=
  ⟨fun _ => rfl, step_status, fun x steps h => run_status steps x h⟩

/-- Witness for C2: a long press sets the latch; an Adv-complete event, and
then a run of a high-pin iteration, an Adv-complete event, a write and a sync,
leave it set. -/
theorem status_latch_monotone_witness :
    ((Sys.init 0).step (Step.tick ⟨0, 2000000, 2100000⟩)).g.status = true ∧
    (((Sys.init 0).step (Step.tick ⟨0, 2000000, 2100000⟩)).step
      (Step.gap ⟨BLE_GAP_EVENT_ADV_COMPLETE, 0⟩)).g.status = true ∧
    (((Sys.init 0).step (Step.tick ⟨0, 2000000, 2100000⟩)).run
      [Step.tick ⟨1, 2110000, 0⟩, Step.gap ⟨BLE_GAP_EVENT_ADV_COMPLETE, 0⟩,
       Step.write ⟨PING ++ [0], 4⟩, Step.sync (some 1)]).g.status = true :=
  ⟨by decide,
   status_latch_monotone.2.1 _ _ (by decide),
   status_latch_monotone.2.2 _ _ (by decide)⟩

/-! ## Counting the commands of the monitor -/

theorem iter_armCount (inp : TickInput) (m : Int) (s : State) :
    armCount (newCalls s (boot_creds_clear_iter inp m s).2) =
      if arms inp m then 1 else 0 := by
  rw [newCalls_of_calls_eq (iter_calls inp m s)]
  by_cases h : arms inp m = true
  · simp [h, armCount, Call.isArm]
  · by_cases hs : s.status = true <;> simp [h, hs, armCount, Call.isArm]

theorem iter_advStartCalls (inp : TickInput) (m : Int) (s : State) :
    advStartCalls (newCalls s (boot_creds_clear_iter inp m s).2) =
      if arms inp m then 2 else if s.status then 1 else 0 := by
  rw [newCalls_of_calls_eq (iter_calls inp m s)]
  by_cases h : arms inp m = true
  · simp [h, advStartCalls, Call.isAdvStart]
  · by_cases hs : s.status = true <;> simp [h, hs, advStartCalls, Call.isAdvStart]

theorem iter_usesAddrType (inp : TickInput) (m : Int) (s : State) :
    (newCalls s (boot_creds_clear_iter inp m s).2).all (usesAddrType s.ble_addr_type)
      = true := by
  rw [newCalls_of_calls_eq (iter_calls inp m s)]
  by_cases h : arms inp m = true
  · simp [h, usesAddrType]
  · by_cases hs : s.status = true <;> simp [h, hs, usesAddrType]

theorem iter_modesUndGen (inp : TickInput) (m : Int) (s : State) :
    (newCalls s (boot_creds_clear_iter inp m s).2).all Call.modesUndGen = true := by
  rw [newCalls_of_calls_eq (iter_calls inp m s)]
  by_cases h : arms inp m = true
  · simp [h, Call.modesUndGen, foreverParams]
  · by_cases hs : s.status = true <;> simp [h, hs, Call.modesUndGen, foreverParams]

theorem armCount_newCalls_append {s t u : State} (h1 : s.calls <+: t.calls)
    (h2 : t.calls <+: u.calls) :
    armCount (newCalls s u) = armCount (newCalls s t) + armCount (newCalls t u) := by
  rw [newCalls_append h1 h2]
  exact List.countP_append _ _ _

theorem advStartCalls_newCalls_append {s t u : State} (h1 : s.calls <+: t.calls)
    (h2 : t.calls <+: u.calls) :
    advStartCalls (newCalls s u) =
      advStartCalls (newCalls s t) + advStartCalls (newCalls t u) := by
  rw [newCalls_append h1 h2]
  exact List.countP_append _ _ _

theorem ble_gap_event_advStartCalls (event : ble_gap_event_t) (s : State) :
    advStartCalls (newCalls s (ble_gap_event event s).1) = 0 := by
  unfold ble_gap_event
  dsimp only
  split_ifs <;>
    first
    | rw [newCalls_self]; rfl
    | rw [newCalls_emit]; rfl
    | rw [newCalls_emit_advertise]; rfl

theorem ble_app_on_sync_advStartCalls (inferred : Option Nat) (s : State) :
    advStartCalls (newCalls s (ble_app_on_sync inferred s)) = 0 := by
  have h : ∀ t : State, t.calls = s.calls → advStartCalls (newCalls s (ble_app_advertise t)) = 0 := by
    intro t ht
    have : (ble_app_advertise t).calls = s.calls ++
        [Call.enter_ble_app_advertise, Call.ble_gap_adv_set_fields (nameFields t)] := by
      rw [ble_app_advertise_calls, ht]
    rw [newCalls_of_calls_eq this]
    rfl
  cases inferred with
  | none => exact h s rfl
  | some t => exact h _ rfl

/-! ## Advertising modes -/

theorem ble_gap_event_modesUndGen (event : ble_gap_event_t) (s : State) :
    (newCalls s (ble_gap_event event s).1).all Call.modesUndGen = true := by
  unfold ble_gap_event
  dsimp only
  split_ifs <;>
    first
    | rw [newCalls_self]; rfl
    | rw [newCalls_emit]; rfl
    | rw [newCalls_emit_advertise]; rfl

theorem device_write_modesUndGen (om : os_mbuf) (s : State) :
    (newCalls s (device_write om s).1).all Call.modesUndGen = true := by
  rcases device_write_fst om s with h | h | h <;> rw [h]
  · rw [newCalls_self]
    rfl
  · rw [newCalls_emit]
    rfl
  · rw [newCalls_emit]
    rfl

theorem ble_app_on_sync_modesUndGen (inferred : Option Nat) (s : State) :
    (newCalls s (ble_app_on_sync inferred s)).all Call.modesUndGen = true := by
  have h : ∀ t : State, t.calls = s.calls →
      (newCalls s (ble_app_advertise t)).all Call.modesUndGen = true := by
    intro t ht
    have : (ble_app_advertise t).calls = s.calls ++
        [Call.enter_ble_app_advertise, Call.ble_gap_adv_set_fields (nameFields t)] := by
      rw [ble_app_advertise_calls, ht]
    rw [newCalls_of_calls_eq this]
    rfl
  cases inferred with
  | none => exact h s rfl
  | some t => exact h _ rfl

theorem step_modesUndGen (x : Sys) (st : Step) :
    (newCalls x.g (x.step st).g).all Call.modesUndGen = true := by
  cases st with
  | tick inp => exact iter_modesUndGen inp x.m x.g
  | gap event => exact ble_gap_event_modesUndGen event x.g
  | write om => exact device_write_modesUndGen om x.g
  | sync inferred => exact ble_app_on_sync_modesUndGen inferred x.g

theorem run_modesUndGen (steps : List Step) (x : Sys)
    (h : x.g.calls.all Call.modesUndGen = true) :
    (x.run steps).g.calls.all Call.modesUndGen = true := by
  induction steps generalizing x with
  | nil => exact h
  | cons st rest ih =>
    rw [run_cons]
    apply ih
    rw [calls_eq_append_newCalls (step_grows x st), List.all_append, h,
      step_modesUndGen x st]
    rfl

/-- C5 fails: a long press sets the latch, then an Adv-complete event makes
the handler call `ble_app_advertise`, which clears `adv_params`; in the state
reached the latch is set while `conn_mode` and `disc_mode` are the zero values,
not `BLE_GAP_CONN_MODE_UND` and `BLE_GAP_DISC_MODE_GEN`. -/
theorem latch_set_modes_cleared :
    ((Sys.init 0).run [Step.tick ⟨0, 2000000, 2100000⟩,
        Step.gap ⟨BLE_GAP_EVENT_ADV_COMPLETE, 0⟩]).g.status = true ∧
    ((Sys.init 0).run [Step.tick ⟨0, 2000000, 2100000⟩,
        Step.gap ⟨BLE_GAP_EVENT_ADV_COMPLETE, 0⟩]).g.adv_params.conn_mode
      = BLE_GAP_CONN_MODE_NON ∧
    ((Sys.init 0).run [Step.tick ⟨0, 2000000, 2100000⟩,
        Step.gap ⟨BLE_GAP_EVENT_ADV_COMPLETE, 0⟩]).g.adv_params.disc_mode
      = BLE_GAP_DISC_MODE_NON ∧
    ((Sys.init 0).run [Step.tick ⟨0, 2000000, 2100000⟩,
        Step.gap ⟨BLE_GAP_EVENT_ADV_COMPLETE, 0⟩]).g.adv_params.conn_mode
      ≠ BLE_GAP_CONN_MODE_UND ∧
    ((Sys.init 0).run [Step.tick ⟨0, 2000000, 2100000⟩,
        Step.gap ⟨BLE_GAP_EVENT_ADV_COMPLETE, 0⟩]).g.adv_params.disc_mode
      ≠ BLE_GAP_DISC_MODE_GEN := by
  decide

/-- C5 as amended: in the state a monitor iteration leaves, from whatever
state it started, a set latch comes with `conn_mode = BLE_GAP_CONN_MODE_UND`
and `disc_mode = BLE_GAP_DISC_MODE_GEN`; and in every run from startup every
`ble_gap_adv_start` issued carries these two modes. -/
theorem latch_modes_after_tick (x : Sys) (inp : TickInput) (m0 : Int)
    (steps : List Step) :
    ((x.step (Step.tick inp)).g.status = true →
      (x.step (Step.tick inp)).g.adv_params.conn_mode = BLE_GAP_CONN_MODE_UND ∧
      (x.step (Step.tick inp)).g.adv_params.disc_mode = BLE_GAP_DISC_MODE_GEN) ∧
    ((Sys.init m0).run steps).g.calls.all Call.modesUndGen = true := by
  refine ⟨?_, run_modesUndGen steps _ rfl⟩
  intro h
  have hs : (boot_creds_clear_iter inp x.m x.g).2.status = true := h
  have hp : (x.step (Step.tick inp)).g.adv_params
      = (boot_creds_clear_iter inp x.m x.g).2.adv_params := rfl
  rw [iter_status] at hs
  rw [hp, iter_params, hs]
  exact ⟨rfl, rfl⟩

/-- Witness for C5 as amended: the iteration that arms, from startup. -/
theorem latch_modes_after_tick_witness :
    ((Sys.init 0).step (Step.tick ⟨0, 2000000, 2100000⟩)).g.status = true ∧
    ((Sys.init 0).step (Step.tick ⟨0, 2000000, 2100000⟩)).g.adv_params.conn_mode
      = BLE_GAP_CONN_MODE_UND ∧
    ((Sys.init 0).step (Step.tick ⟨0, 2000000, 2100000⟩)).g.adv_params.disc_mode
      = BLE_GAP_DISC_MODE_GEN :=
  ⟨by decide,
   (latch_modes_after_tick (Sys.init 0) ⟨0, 2000000, 2100000⟩ 0 []).1 (by decide)⟩

/-! ## Runs of the monitor -/

theorem arms_false_of_below (inp : TickInput) (m : Int)
    (h : Int.tdiv (inp.now - m) 1000 < 2000) : arms inp m = false := by
  simp [arms, thresholdReached, h]

theorem arms_true_of_reached (inp : TickInput) (m : Int)
    (h : inp.level = 0 ∧ Int.tdiv (inp.now - m) 1000 ≥ 2000) : arms inp m = true := by
  simp [arms, thresholdReached, h.1, h.2]

theorem arms_true_iff (inp : TickInput) (m : Int) (h0 : inp.level = 0) :
    arms inp m = true ↔ Int.tdiv (inp.now - m) 1000 ≥ 2000 := by
  simp [arms, thresholdReached, h0]

theorem run_below_threshold (run : List TickInput) (m : Int) (s : State)
    (hs : s.status = false) (h : belowThresholdRun run m s = true) :
    advStartCalls (newCalls s (boot_creds_clear run m s).2) = 0 ∧
    armCount (newCalls s (boot_creds_clear run m s).2) = 0 ∧
    (boot_creds_clear run m s).2.status = false := by
  induction run generalizing m s with
  | nil =>
    refine ⟨?_, ?_, hs⟩
    · show advStartCalls (newCalls s s) = 0
      rw [newCalls_self]
      rfl
    · show armCount (newCalls s s) = 0
      rw [newCalls_self]
      rfl
  | cons inp rest ih =>
    simp only [belowThresholdRun, Bool.and_eq_true] at h
    obtain ⟨h1, h2⟩ := h
    have ha : arms inp m = false := by
      rcases Bool.or_eq_true_iff.mp h1 with h3 | h3
      · have : inp.level ≠ 0 := of_decide_eq_true h3
        simp [arms, this]
      · have : thresholdReached inp.now m = false := by simpa using h3
        simp [arms, this]
    have hst : (boot_creds_clear_iter inp m s).2.status = false := by
      rw [iter_status, ha, hs]
      rfl
    obtain ⟨r1, r2, r3⟩ := ih _ _ hst h2
    rw [boot_creds_clear_cons]
    refine ⟨?_, ?_, r3⟩
    · rw [advStartCalls_newCalls_append (iter_grows inp m s)
        (boot_creds_clear_grows rest _ _), r1, iter_advStartCalls, ha, hs]
      rfl
    · rw [armCount_newCalls_append (iter_grows inp m s)
        (boot_creds_clear_grows rest _ _), r2, iter_armCount, ha]
      rfl

/-- C6: in a run of the monitor that starts with the latch false (as at
startup) and in which, at every low-pin iteration, `(n - m) / 1000 < 2000` for
the loop's own `m`, no `ble_gap_adv_start` is issued, no arm action happens and
the latch is still false at the end; and in a low-pin iteration the arm action
happens if and only if `(n - m) / 1000 >= 2000`. -/
theorem monitor_below_threshold_silent (run : List TickInput) (m : Int) (s : State) :
    (s.status = false → belowThresholdRun run m s = true →
      advStartCalls (newCalls s (boot_creds_clear run m s).2) = 0 ∧
      armCount (newCalls s (boot_creds_clear run m s).2) = 0 ∧
      (boot_creds_clear run m s).2.status = false) ∧
    (∀ inp : TickInput, inp.level = 0 →
      (armCount (newCalls s (boot_creds_clear_iter inp m s).2) = 1
        ↔ Int.tdiv (inp.now - m) 1000 ≥ 2000) ∧
      (armCount (newCalls s (boot_creds_clear_iter inp m s).2) = 0
        ↔ Int.tdiv (inp.now - m) 1000 < 2000)) := by
  refine ⟨run_below_threshold run m s, ?_⟩
  intro inp h0
  rw [iter_armCount]
  by_cases h : Int.tdiv (inp.now - m) 1000 ≥ 2000
  · have ha : arms inp m = true := (arms_true_iff inp m h0).mpr h
    simp [ha, h]
  · have ha : arms inp m = false := arms_false_of_below inp m (not_le.mp h)
    simp [ha, not_le.mp h]

/-- Witness for C6: from startup, the pin is low at 1.0 s and 1.999999 s,
released at 2.0 s, low again at 3.999999 s; and a low-pin iteration at 2.0 s
with `m = 0` arms. -/
theorem monitor_below_threshold_silent_witness :
    (advStartCalls (newCalls State.init (boot_creds_clear
        [⟨0, 1000000, 0⟩, ⟨0, 1999999, 0⟩, ⟨1, 2000000, 0⟩, ⟨0, 3999999, 0⟩]
        0 State.init).2) = 0 ∧
      armCount (newCalls State.init (boot_creds_clear
        [⟨0, 1000000, 0⟩, ⟨0, 1999999, 0⟩, ⟨1, 2000000, 0⟩, ⟨0, 3999999, 0⟩]
        0 State.init).2) = 0 ∧
      (boot_creds_clear
        [⟨0, 1000000, 0⟩, ⟨0, 1999999, 0⟩, ⟨1, 2000000, 0⟩, ⟨0, 3999999, 0⟩]
        0 State.init).2.status = false) ∧
    armCount (newCalls State.init
      (boot_creds_clear_iter ⟨0, 2000000, 2100000⟩ 0 State.init).2) = 1 :=
  ⟨(monitor_below_threshold_silent
      [⟨0, 1000000, 0⟩, ⟨0, 1999999, 0⟩, ⟨1, 2000000, 0⟩, ⟨0, 3999999, 0⟩]
      0 State.init).1 rfl (by decide),
   ((monitor_below_threshold_silent [] 0 State.init).2
      ⟨0, 2000000, 2100000⟩ rfl).1.mpr (by decide)⟩

theorem hold_below (run : List TickInput) (m : Int) (s : State)
    (h : ∀ i ∈ run, i.level = 0 ∧ Int.tdiv (i.now - m) 1000 < 2000) :
    (boot_creds_clear run m s).1 = m ∧
    armCount (newCalls s (boot_creds_clear run m s).2) = 0 := by
  induction run generalizing s with
  | nil =>
    refine ⟨rfl, ?_⟩
    show armCount (newCalls s s) = 0
    rw [newCalls_self]
    rfl
  | cons inp rest ih =>
    have hi := h inp (List.mem_cons_self _ _)
    have ha : arms inp m = false := arms_false_of_below inp m hi.2
    have hm : (boot_creds_clear_iter inp m s).1 = m := by
      rw [iter_m, ha]
      simp [hi.1]
    have hrest := ih (boot_creds_clear_iter inp m s).2
      (fun i hmem => h i (List.mem_cons_of_mem _ hmem))
    rw [boot_creds_clear_cons, hm]
    refine ⟨hrest.1, ?_⟩
    rw [armCount_newCalls_append (iter_grows inp m s)
      (boot_creds_clear_grows rest _ _), hrest.2, iter_armCount, ha]
    rfl

theorem hold_arm (a : TickInput) (m : Int) (s : State)
    (ha : a.level = 0 ∧ Int.tdiv (a.now - m) 1000 ≥ 2000) :
    (boot_creds_clear [a] m s).1 = a.after ∧
    armCount (newCalls s (boot_creds_clear [a] m s).2) = 1 := by
  have h : arms a m = true := arms_true_of_reached a m ha
  refine ⟨?_, ?_⟩
  · show (boot_creds_clear_iter a m s).1 = a.after
    rw [iter_m, h]
    rfl
  · show armCount (newCalls s (boot_creds_clear_iter a m s).2) = 1
    rw [iter_armCount, h]
    rfl

/-- A hold split into the iterations before the threshold, the one that
reaches it, and those within the threshold of the reset. -/
theorem hold_split (pre post : List TickInput) (a : TickInput) (m : Int) (s : State)
    (hpre : ∀ i ∈ pre, i.level = 0 ∧ Int.tdiv (i.now - m) 1000 < 2000)
    (ha : a.level = 0 ∧ Int.tdiv (a.now - m) 1000 ≥ 2000)
    (hpost : ∀ i ∈ post, i.level = 0 ∧ Int.tdiv (i.now - a.after) 1000 < 2000) :
    armCount (newCalls s (boot_creds_clear pre m s).2) = 0 ∧
    armCount (newCalls (boot_creds_clear pre m s).2
      (boot_creds_clear (pre ++ [a]) m s).2) = 1 ∧
    (boot_creds_clear (pre ++ [a]) m s).1 = a.after ∧
    armCount (newCalls (boot_creds_clear (pre ++ [a]) m s).2
      (boot_creds_clear (pre ++ a :: post) m s).2) = 0 ∧
    (boot_creds_clear (pre ++ a :: post) m s).1 = a.after ∧
    armCount (newCalls s (boot_creds_clear (pre ++ a :: post) m s).2) = 1 := by
  have e : pre ++ a :: post = (pre ++ [a]) ++ post := by simp
  obtain ⟨p1, p2⟩ := hold_below pre m s hpre
  obtain ⟨a1, a2⟩ := hold_arm a m (boot_creds_clear pre m s).2 ha
  have hA : boot_creds_clear (pre ++ [a]) m s
      = boot_creds_clear [a] m (boot_creds_clear pre m s).2 := by
    rw [boot_creds_clear_append, p1]
  obtain ⟨q1, q2⟩ := hold_below post a.after (boot_creds_clear (pre ++ [a]) m s).2 hpost
  have hB : boot_creds_clear (pre ++ a :: post) m s
      = boot_creds_clear post a.after (boot_creds_clear (pre ++ [a]) m s).2 := by
    rw [e, boot_creds_clear_append, hA, a1]
  have pre1 : s.calls <+: (boot_creds_clear pre m s).2.calls :=
    boot_creds_clear_grows pre m s
  have pre2 : (boot_creds_clear pre m s).2.calls
      <+: (boot_creds_clear (pre ++ [a]) m s).2.calls := by
    rw [hA]
    exact boot_creds_clear_grows _ _ _
  have pre3 : (boot_creds_clear (pre ++ [a]) m s).2.calls
      <+: (boot_creds_clear (pre ++ a :: post) m s).2.calls := by
    rw [hB]
    exact boot_creds_clear_grows _ _ _
  have c2 : armCount (newCalls (boot_creds_clear pre m s).2
      (boot_creds_clear (pre ++ [a]) m s).2) = 1 := by
    rw [hA]
    exact a2
  have c3 : armCount (newCalls (boot_creds_clear (pre ++ [a]) m s).2
      (boot_creds_clear (pre ++ a :: post) m s).2) = 0 := by
    rw [hB]
    exact q2
  refine ⟨p2, c2, by rw [hA]; exact a1, c3, by rw [hB]; exact q1, ?_⟩
  rw [armCount_newCalls_append (pre1.trans pre2) pre3,
    armCount_newCalls_append pre1 pre2, p2, c2, c3]

/-- C7: in a hold (pin low at every iteration) whose iterations `pre` read the
clock below the threshold from `m`, whose iteration `a` is the first to reach
it, and whose following iterations `post` read the clock less than the
threshold after the reset, no arm action happens before `a`, exactly one
happens in `a`, which leaves `m` at the clock value read after its delay, none
happens in `post`, so the hold arms exactly once. -/
theorem hold_arms_once (pre post : List TickInput) (a : TickInput) (m : Int) (s : State)
    (hpre : ∀ i ∈ pre, i.level = 0 ∧ Int.tdiv (i.now - m) 1000 < 2000)
    (ha : a.level = 0 ∧ Int.tdiv (a.now - m) 1000 ≥ 2000)
    (hpost : ∀ i ∈ post, i.level = 0 ∧ Int.tdiv (i.now - a.after) 1000 < 2000) :
    armCount (newCalls s (boot_creds_clear pre m s).2) = 0 ∧
    armCount (newCalls (boot_creds_clear pre m s).2
      (boot_creds_clear (pre ++ [a]) m s).2) = 1 ∧
    (boot_creds_clear (pre ++ [a]) m s).1 = a.after ∧
    armCount (newCalls (boot_creds_clear (pre ++ [a]) m s).2
      (boot_creds_clear (pre ++ a :: post) m s).2) = 0 ∧
    armCount (newCalls s (boot_creds_clear (pre ++ a :: post) m s).2) = 1 := by
  obtain ⟨h1, h2, h3, h4, _, h6⟩ := hold_split pre post a m s hpre ha hpost
  exact ⟨h1, h2, h3, h4, h6⟩

/-- Witness for C7: a hold from time 0 sampled at 1.0 s and 1.99 s, reaching
the threshold at 2.0 s (clock 2.1 s after the delay), then five more
iterations 10 ms apart. -/
theorem hold_arms_once_witness :
    armCount (newCalls State.init (boot_creds_clear
      [⟨0, 1000000, 0⟩, ⟨0, 1990000, 0⟩] 0 State.init).2) = 0 ∧
    armCount (newCalls
      (boot_creds_clear [⟨0, 1000000, 0⟩, ⟨0, 1990000, 0⟩] 0 State.init).2
      (boot_creds_clear ([⟨0, 1000000, 0⟩, ⟨0, 1990000, 0⟩] ++ [⟨0, 2000000, 2100000⟩])
        0 State.init).2) = 1 ∧
    (boot_creds_clear ([⟨0, 1000000, 0⟩, ⟨0, 1990000, 0⟩] ++ [⟨0, 2000000, 2100000⟩])
      0 State.init).1 = 2100000 ∧
    armCount (newCalls
      (boot_creds_clear ([⟨0, 1000000, 0⟩, ⟨0, 1990000, 0⟩] ++ [⟨0, 2000000, 2100000⟩])
        0 State.init).2
      (boot_creds_clear ([⟨0, 1000000, 0⟩, ⟨0, 1990000, 0⟩] ++
        ⟨0, 2000000, 2100000⟩ ::
          [⟨0, 2110000, 0⟩, ⟨0, 2120000, 0⟩, ⟨0, 2130000, 0⟩, ⟨0, 2140000, 0⟩,
           ⟨0, 2150000, 0⟩]) 0 State.init).2) = 0 ∧
    armCount (newCalls State.init
      (boot_creds_clear ([⟨0, 1000000, 0⟩, ⟨0, 1990000, 0⟩] ++
        ⟨0, 2000000, 2100000⟩ ::
          [⟨0, 2110000, 0⟩, ⟨0, 2120000, 0⟩, ⟨0, 2130000, 0⟩, ⟨0, 2140000, 0⟩,
           ⟨0, 2150000, 0⟩]) 0 State.init).2) = 1 :=
  hold_arms_once [⟨0, 1000000, 0⟩, ⟨0, 1990000, 0⟩]
    [⟨0, 2110000, 0⟩, ⟨0, 2120000, 0⟩, ⟨0, 2130000, 0⟩, ⟨0, 2140000, 0⟩, ⟨0, 2150000, 0⟩]
    ⟨0, 2000000, 2100000⟩ 0 State.init (by decide) (by decide) (by decide)

/-- C8 fails: a hold from time 0 arms at 2.0 s, the clock reads 2.1 s after
the delay of the arm action, and the pin stays low through 2.11 s, 2.12 s,
3.0 s and 4.09 s, all past 2000 + 100 ms from the start of the hold; the run
holds one arm action, not two. -/
theorem hold_past_debounce_arms_once :
    armCount (newCalls State.init (boot_creds_clear
      [⟨0, 2000000, 2100000⟩, ⟨0, 2110000, 0⟩, ⟨0, 2120000, 0⟩, ⟨0, 3000000, 0⟩,
       ⟨0, 4090000, 0⟩] 0 State.init).2) = 1 ∧
    armCount (newCalls State.init (boot_creds_clear
      [⟨0, 2000000, 2100000⟩, ⟨0, 2110000, 0⟩, ⟨0, 2120000, 0⟩, ⟨0, 3000000, 0⟩,
       ⟨0, 4090000, 0⟩] 0 State.init).2) ≠ 2 := by
  decide

/-- C8 as amended: in a hold that has armed once in iteration `a`, the second
arm action happens in the first iteration `b` whose clock reading is at least
the threshold after the value `m` took at the end of the first arm action
(`(n - m) / 1000 >= 2000` with `m = a.after`); up to `b` the hold has armed
once, with `b` twice, and `b` resets `m` again. -/
theorem hold_rearms_after_second_threshold (pre post : List TickInput)
    (a b : TickInput) (m : Int) (s : State)
    (hpre : ∀ i ∈ pre, i.level = 0 ∧ Int.tdiv (i.now - m) 1000 < 2000)
    (ha : a.level = 0 ∧ Int.tdiv (a.now - m) 1000 ≥ 2000)
    (hpost : ∀ i ∈ post, i.level = 0 ∧ Int.tdiv (i.now - a.after) 1000 < 2000)
    (hb : b.level = 0 ∧ Int.tdiv (b.now - a.after) 1000 ≥ 2000) :
    armCount (newCalls s (boot_creds_clear (pre ++ a :: post) m s).2) = 1 ∧
    armCount (newCalls s (boot_creds_clear ((pre ++ a :: post) ++ [b]) m s).2) = 2 ∧
    (boot_creds_clear ((pre ++ a :: post) ++ [b]) m s).1 = b.after := by
  obtain ⟨_, _, _, _, h5, h6⟩ := hold_split pre post a m s hpre ha hpost
  obtain ⟨b1, b2⟩ := hold_arm b a.after (boot_creds_clear (pre ++ a :: post) m s).2 hb
  have hA : boot_creds_clear ((pre ++ a :: post) ++ [b]) m s
      = boot_creds_clear [b] a.after (boot_creds_clear (pre ++ a :: post) m s).2 := by
    rw [boot_creds_clear_append, h5]
  refine ⟨h6, ?_, by rw [hA]; exact b1⟩
  have p1 : s.calls <+: (boot_creds_clear (pre ++ a :: post) m s).2.calls :=
    boot_creds_clear_grows _ m s
  rw [hA, armCount_newCalls_append p1 (boot_creds_clear_grows _ _ _), h6, b2]

/-- Witness for C8 as amended: the hold from time 0 arms at 2.0 s, the clock
reads 2.1 s after the delay, the pin stays low at 2.11 s and 4.09 s, and the
iteration at 4.1 s arms again. -/
theorem hold_rearms_after_second_threshold_witness :
    armCount (newCalls State.init (boot_creds_clear
      ([] ++ ⟨0, 2000000, 2100000⟩ :: [⟨0, 2110000, 0⟩, ⟨0, 4090000, 0⟩])
      0 State.init).2) = 1 ∧
    armCount (newCalls State.init (boot_creds_clear
      (([] ++ ⟨0, 2000000, 2100000⟩ :: [⟨0, 2110000, 0⟩, ⟨0, 4090000, 0⟩]) ++
        [⟨0, 4100000, 4200000⟩]) 0 State.init).2) = 2 ∧
    (boot_creds_clear
      (([] ++ ⟨0, 2000000, 2100000⟩ :: [⟨0, 2110000, 0⟩, ⟨0, 4090000, 0⟩]) ++
        [⟨0, 4100000, 4200000⟩]) 0 State.init).1 = 4200000 :=
  hold_rearms_after_second_threshold [] [⟨0, 2110000, 0⟩, ⟨0, 4090000, 0⟩]
    ⟨0, 2000000, 2100000⟩ ⟨0, 4100000, 4200000⟩ 0 State.init
    (by decide) (by decide) (by decide) (by decide)

end BleLed
